import Mathlib

/-!
Shallow embedding of `src/pycln/utils/config.py` (the pycln configuration
resolution pipeline): the `Config` dataclass, its `__post_init__` / validation
phase, the `ParseConfigFile` loader with its per-format decoders, and the
field merger `_config_loader`, together with the path helper `get_relpath`.

Modelling conventions:
* Python runtime values flowing through the merger are the inductive `Val`
  (None / bool / int / str / compiled-pattern / pathlib.Path); `setattr` is
  untyped in Python, so every settable field of the model holds a `Val`.
  Only `Path` values support `.suffix` / `.is_file()`; decoded file values
  are plain `str`/`bool`/`int`/`None`, so a value a config file stored in
  the `config` field crashes with `AttributeError` when it re-enters the
  loader.
* The filesystem is explicit (`FS`): lists of existing files and directories
  plus a map from a path to its parse result (`ParseResult`: a nested
  mapping `Doc`, or `None` for an empty YAML document); parsing libraries
  (`configparser`, `toml`, `json`, `yaml`) are external and enter the model
  only through their already-parsed results, exactly as the code consumes
  them (`parser._sections`, `toml.load`, `json.load`, `yaml.load`).
* `regexu.safe_compile` is an external black box; it is a parameter
  `sc : String -> Option String` (`some r` = compiled pattern whose repr is
  `r`, `none` = PatternError, fatal).
* `typer.Exit(1)` and uncaught exceptions are the `Except` error channel
  (`Err`); the construction is a fueled recursion because a config file may
  set the `config` field again, re-entering the loader.
-/

namespace PyclnConfig

/-- A Python runtime value as it can appear in a `Config` attribute or a
decoded config mapping: `None`, a bool, an int, a string, a compiled regex
pattern (`vRegex r` models the result of `re.compile` with source/repr `r`),
or a `pathlib.Path` whose string form is given (`vPath`). Only the caller
ever supplies `Path` objects (the CLI hands `path`/`config` over as
`pathlib.Path`); the file parsers produce plain `str`/`bool`/`int`/`None`
values, never `Path` — the distinction matters because only `Path` has the
`.suffix`/`.is_file()` attributes `ParseConfigFile` uses. -/
inductive Val where
| vNone : Val
| vBool : Bool → Val
| vInt : Int → Val
| vStr : String → Val
| vRegex : String → Val
| vPath : String → Val
deriving DecidableEq, Repr

/-- Python truthiness test `if not x` on the values of the model
(`None`, `False`, `0`, and `""` are falsy; a `Path` object is always
truthy). -/
def pyFalsy : Val → Bool
| .vNone => true
| .vBool b => !b
| .vInt n => n == 0
| .vStr s => s == ""
| .vRegex _ => false
| .vPath _ => false

/-- Python `str()` on the values of the model (`str(Path(p))` is the path
string). -/
def strOfVal : Val → String
| .vNone => "None"
| .vBool b => if b then "True" else "False"
| .vInt n => toString n
| .vStr s => s
| .vRegex r => "re.compile(" ++ r ++ ")"
| .vPath p => p

/-- The `Config` dataclass instance: the schema fields of
`src/pycln/utils/config.py` (`path`, `config`, `include`, `exclude`, and the
eight boolean flags), plus `extra`, the instance `__dict__` entries created
when `setattr` is called with a name that is a class attribute but not a
dataclass field (Python allows this; see `setattrConfig`). -/
structure Config where
  path : Val
  config : Val
  «include» : Val
  exclude : Val
  all_ : Val
  check : Val
  diff : Val
  verbose : Val
  quiet : Val
  silence : Val
  expand_stars : Val
  no_gitignore : Val
  extra : List (String × Val)
deriving DecidableEq, Repr

/-- Names `k` with `hasattr(Config, k)` true: dataclass fields that have a
default value (stored as class attributes), the methods defined on `Config`,
and the dataclass-generated / object-inherited members. `path` is absent:
it is the only field declared without a default, so it is an annotation
only, not a class attribute. -/
def configClassAttrs : List String :=
  ["config", "include", "exclude", "all_", "check", "diff", "verbose",
   "quiet", "silence", "expand_stars", "no_gitignore",
   "__post_init__", "_check_path", "_check_regex", "get_relpath",
   "__init__", "__repr__", "__eq__", "__doc__", "__module__", "__dict__",
   "__weakref__", "__annotations__", "__dataclass_fields__",
   "__dataclass_params__", "__hash__", "__str__", "__class__",
   "__delattr__", "__dir__", "__format__", "__ge__", "__getattribute__",
   "__gt__", "__le__", "__lt__", "__ne__", "__new__", "__reduce__",
   "__reduce_ex__", "__setattr__", "__sizeof__", "__subclasshook__",
   "__init_subclass__"]

/-- `hasattr(Config, k)`: whether `k` names an attribute of the `Config`
class. -/
def hasattrConfig (k : String) : Bool := configClassAttrs.contains k

/-- `setattr(config, k, v)`: a dataclass-field name updates that field; any
other name lands in the instance `__dict__` (modelled by `extra`, replacing
an earlier entry of the same name). -/
def setattrConfig (c : Config) (k : String) (v : Val) : Config :=
  match k with
  | "path" => { c with path := v }
  | "config" => { c with config := v }
  | "include" => { c with «include» := v }
  | "exclude" => { c with exclude := v }
  | "all_" => { c with all_ := v }
  | "check" => { c with check := v }
  | "diff" => { c with diff := v }
  | "verbose" => { c with verbose := v }
  | "quiet" => { c with quiet := v }
  | "silence" => { c with silence := v }
  | "expand_stars" => { c with expand_stars := v }
  | "no_gitignore" => { c with no_gitignore := v }
  | _ => { c with extra := (c.extra.filter (fun kv => kv.1 ≠ k)) ++ [(k, v)] }

/-- One iteration of the `for k, v in config_dict.items()` loop of
`ParseConfigFile._config_loader`: substitute the reserved name
(`all` ~> `all_`), then assign only when `hasattr(Config, k)`. -/
def applyKV (c : Config) (kv : String × Val) : Config :=
  let k := if kv.1 = "all" then "all_" else kv.1
  if hasattrConfig k then setattrConfig c k kv.2 else c

/-- `ParseConfigFile._config_loader`: merge a decoded flat mapping onto the
target `Config` (the `if config_dict:` guard skips the loop on an empty
mapping, which merges nothing either way). -/
def configLoader (m : List (String × Val)) (c : Config) : Config :=
  if m.isEmpty then c else m.foldl applyKV c

/-- A parsed configuration document, as the external parsing libraries hand
it to the decoders: `cfg` is the `parser._sections` of `configparser` (section
name to flat key/value mapping), `toml` is the nested tables of `toml.load` down
to the two levels the code reads, `flat` is a `json.load` / `yaml.load`
top-level object whose values are flat mappings. -/
inductive Doc where
| cfg : List (String × List (String × Val)) → Doc
| toml : List (String × List (String × List (String × Val))) → Doc
| flat : List (String × List (String × Val)) → Doc
deriving Repr

/-- Association-list lookup, modelling Python `dict.get`. -/
def lookupStr {α : Type} (l : List (String × α)) (k : String) : Option α :=
  match l with
  | [] => none
  | (k', v) :: rest => if k' = k then some v else lookupStr rest k

/-- The constant `CONFIG_SECTIONS`: supported config-file extension to the
section key holding the pycln settings. -/
def CONFIG_SECTIONS : List (String × String) :=
  [(".cfg", "pycln"), (".toml", "tool.pycln"), (".json", "pycln"),
   (".yaml", "pycln"), (".yml", "pycln")]

/-- Split a character list at every occurrence of `c` (Python
`str.split(c)` for a one-character separator). -/
def splitCharList (c : Char) : List Char → List (List Char)
| [] => [[]]
| x :: xs =>
  let r := splitCharList c xs
  if x = c then [] :: r
  else
    match r with
    | [] => [[x]]
    | y :: ys => (x :: y) :: ys

/-- Python `s.split(c)` for a one-character separator `c`. -/
def splitOnChar (c : Char) (s : String) : List String :=
  (splitCharList c s.data).map (fun l => String.mk l)

/-- `pathlib.Path(p).suffix`: the extension of the final component including the
dot, empty when there is none (a leading dot alone, as in `.bashrc`, is not
a suffix). -/
def suffixOf (p : String) : String :=
  let name := (splitOnChar '/' p).getLastD ""
  match splitOnChar '.' name with
  | [] => ""
  | [_] => ""
  | ["", _] => ""
  | parts => "." ++ parts.getLastD ""

/-- What a parsing library hands back for a file: a (nested) mapping
(`mapping`), or `None` (`pyNone`) — `yaml.load` returns `None` for a valid
but empty YAML document, on which the subsequent `parsed_yaml.get` raises
`AttributeError`. (`configparser` and `toml.load` always produce mappings;
`pyNone` models the `json.load`/`yaml.load` non-mapping outcomes the
decoders can actually crash on.) -/
inductive ParseResult where
| mapping : Doc → ParseResult
| pyNone : ParseResult
deriving Repr

/-- The filesystem as the code observes it: which paths are existing files,
which are existing directories, and the parse result behind each config
file path (the bytes of the file enter the code only through a parsing
library, so the model stores what the library for its extension would
return). -/
structure FS where
  files : List String
  dirs : List String
  doc : String → ParseResult

/-- `Path.is_file()` on a model value: the attribute exists only on a
`pathlib.Path` object. (In the code only `self.path`, always the
caller-supplied `Path`, reaches this.) -/
def isFileV (fs : FS) (v : Val) : Bool :=
  match v with
  | .vPath s => fs.files.contains s
  | _ => false

/-- `Path.is_dir()` on a model value; exists only on a `pathlib.Path`. -/
def isDirV (fs : FS) (v : Val) : Bool :=
  match v with
  | .vPath s => fs.dirs.contains s
  | _ => false

/-- Fatal outcomes. The first four model the `typer.Exit(1)` sites of the code
(carrying the data their diagnostics print); `typeCrash` models an uncaught
Python exception when a non-path value reaches path operations;
`fuelExhausted` is a model artifact standing for a construction that is
still loading files when the fuel runs out (the code would loop). -/
inductive Err where
| pathError : String → Err
| missingFileError : String → Err
| unsupportedFormatError : String → List String → Err
| patternError : String → Err
| typeCrash : Err
| fuelExhausted : Err
deriving DecidableEq, Repr

/-- The process exit status each outcome produces: every `typer.Exit(1)`
site exits with status 1; the model artifacts have no status. -/
def exitStatus : Err → Option Nat
| .pathError _ => some 1
| .missingFileError _ => some 1
| .unsupportedFormatError _ _ => some 1
| .patternError _ => some 1
| .typeCrash => none
| .fuelExhausted => none

/-- The diagnostic message of `ParseConfigFile.parse` for a missing config
file (`f"Config file {str(self._path)!r} does not exist 😅"`). -/
def missingFileMsg (p : String) : String :=
  "Config file " ++ "'" ++ p ++ "'" ++ " does not exist 😅"

/-- The decoders `_parse_cfg` / `_parse_toml` / `_parse_json` /
`_parse_yaml` / `_parse_yml`, factored over the parsed document: each
extracts the flat mapping at the resolved section key, with an empty mapping
when the section (either level, for the TOML dotted path) is absent.
Unreachable combinations (an extension outside `CONFIG_SECTIONS`, or a
dotted-path section for a non-TOML file) return the empty mapping. -/
def decodeDoc (d : Doc) (sec : String) (suffix : String) : List (String × Val) :=
  match suffix, d with
  | ".cfg", .cfg sections => (lookupStr sections sec).getD []
  | ".toml", .toml tables =>
    match splitOnChar '.' sec with
    | [tool, pycln] => (lookupStr ((lookupStr tables tool).getD []) pycln).getD []
    | _ => []
  | ".json", .flat top => (lookupStr top sec).getD []
  | ".yaml", .flat top => (lookupStr top sec).getD []
  | ".yml", .flat top => (lookupStr top sec).getD []
  | _, _ => []

/-- The decoders together with the library parse step: on a mapping
document, extract per `decodeDoc`; on a `None` document (empty YAML file),
`parsed_yaml.get` / `parsed_json.get` raises `AttributeError` — modelled as
`typeCrash` — instead of returning a mapping. -/
def decodeFile (r : ParseResult) (sec : String) (suffix : String) :
    Except Err (List (String × Val)) :=
  match r with
  | .mapping d => .ok (decodeDoc d sec suffix)
  | .pyNone => .error .typeCrash

/-- The `file_path` taken from a non-`None` `config` value: only a
`pathlib.Path` has the `.suffix` attribute that `ParseConfigFile.__init__`
reads immediately (config.py:105). A decoded file value is a plain
`str`/`bool`/`int` — `str` has no `.suffix` — so Python raises
`AttributeError` there (`typeCrash`), before `parse()` ever runs. -/
def asPathVal : Val → Option String
| .vPath s => some s
| _ => none

/-- `Config._check_path`: fail when the path is falsy, or neither an
existing directory nor an existing file. -/
def checkPath (fs : FS) (c : Config) : Except Err Unit :=
  if pyFalsy c.path then
    .error (.pathError "No Path provided. Nothing to do 😴")
  else if isDirV fs c.path || isFileV fs c.path then
    .ok ()
  else
    .error (.pathError ("'" ++ strOfVal c.path ++
      "' is not a directory or a file. Maybe it does not exist 😅"))

/-- `Config._check_regex`: recompile `str(include)` and `str(exclude)`
through the external `regexu.safe_compile` (the abstract `sc`); failure is a
fatal `PatternError`. -/
def checkRegex (sc : String → Option String) (c : Config) : Except Err Config :=
  match sc (strOfVal c.«include») with
  | none => .error (.patternError (strOfVal c.«include»))
  | some r1 =>
    match sc (strOfVal c.exclude) with
    | none => .error (.patternError (strOfVal c.exclude))
    | some r2 => .ok { c with «include» := .vRegex r1, exclude := .vRegex r2 }

/-- The validation phase of the `else` branch of `Config.__post_init__`:
`_check_path` then `_check_regex`. -/
def validate (fs : FS) (sc : String → Option String) (c : Config) :
    Except Err Config :=
  match checkPath fs c with
  | .error e => .error e
  | .ok _ => checkRegex sc c

/-- One round of `Config.__post_init__` together with `ParseConfigFile`
(which it calls and which calls it back on `recur`): on a non-`None`
`config`, take it as the file path — `__init__` reads `self._path.suffix`
at once, so a non-`Path` value dies with `AttributeError` here — then run
the loader: existence check, section lookup in `CONFIG_SECTIONS`, decode,
`_config_loader` merge, then `__post_init__` again (`recur`); on a `None`
`config`, validate. A successful round reports how many config files it
loaded. -/
def postInitStep (sc : String → Option String) (fs : FS) (c : Config)
    (recur : Config → Except Err (Config × Nat)) :
    Except Err (Config × Nat) :=
  if c.config = Val.vNone then
    match validate fs sc c with
    | .error e => .error e
    | .ok c' => .ok (c', 0)
  else
    match asPathVal c.config with
    | none => .error .typeCrash
    | some p =>
      if fs.files.contains p then
        match lookupStr CONFIG_SECTIONS (suffixOf p) with
        | none => .error (.unsupportedFormatError p (CONFIG_SECTIONS.map Prod.fst))
        | some sec =>
          match decodeFile (fs.doc p) sec (suffixOf p) with
          | .error e => .error e
          | .ok m =>
            match recur (configLoader m { c with config := Val.vNone }) with
            | .error e => .error e
            | .ok (c', n) => .ok (c', n + 1)
      else .error (.missingFileError p)

/-- The full construction: iterate `postInitStep`; `fuel` bounds the
re-entry depth (the code recurses unboundedly when merged content keeps
setting `config`). -/
def postInit (sc : String → Option String) :
    Nat → FS → Config → Except Err (Config × Nat)
| 0, _, _ => .error .fuelExhausted
| fuel + 1, fs, c => postInitStep sc fs c (postInit sc fuel fs)

/-!
`Config.get_relpath` works on absolute paths through `os.path.relpath` and
`os.path.join`. The model works at the level of effective path values:
an absolute path is its list of components after normalization
(`os.path.relpath` normalizes via `abspath`), so `/repo/sub/f.py` is
`["repo", "sub", "f.py"]`.
-/

/-- Length of the longest common component prefix of two paths, as
`os.path.relpath` computes it to find the common ancestor. -/
def commonPrefixLen : List String → List String → Nat
| a :: as', b :: bs => if a = b then commonPrefixLen as' bs + 1 else 0
| _, _ => 0

/-- `os.path.relpath(x, start)` on normalized absolute component paths:
climb out of the components of `start` beyond the common ancestor with `..`,
then descend into the rest of `x`. -/
def relpathComponents (x start : List String) : List String :=
  let c := commonPrefixLen x start
  List.replicate (start.length - c) ".." ++ x.drop c

/-- `os.path.join(p, r)` for a relative `r`, taken at effective value
(normalized): append the components of `r` to `p`, resolving `..` and `.`. -/
def joinNorm (p r : List String) : List String :=
  r.foldl
    (fun acc comp =>
      if comp = ".." then acc.dropLast
      else if comp = "." then acc
      else acc ++ [comp]) p

/-- A normalized component path: no `.` or `..` components (what
`os.path.normpath` / `abspath` produce for an absolute path). -/
def normalizedPath (p : List String) : Bool :=
  p.all (fun comp => comp ≠ "." && comp ≠ "..")

/-- `Config.get_relpath`: return `src` unchanged when it is an existing
file; otherwise re-anchor it under `path` via
`os.path.join(path, os.path.relpath(src, path))`. `files` is the set of
existing files, `path` is `self.path`. -/
def get_relpath (files : List (List String)) (path src : List String) :
    List String :=
  if files.contains src then src
  else joinNorm path (relpathComponents src path)

/-- Diagnostic message of each fatal outcome (the `typer.secho` text; for
`unsupportedFormatError` the first of its two lines). -/
def errMessage : Err → String
| .pathError m => m
| .missingFileError p => missingFileMsg p
| .unsupportedFormatError p _ => "Config file " ++ "'" ++ p ++ "'" ++ " is not supported 😅"
| .patternError s => s
| .typeCrash => ""
| .fuelExhausted => ""

/-- Whether the resolved section key is absent from a parsed document of the
given format (for TOML: either level of the dotted path missing). -/
def sectionAbsent (d : Doc) (sec : String) (suffix : String) : Bool :=
  match suffix, d with
  | ".cfg", .cfg sections => (lookupStr sections sec).isNone
  | ".toml", .toml tables =>
    match splitOnChar '.' sec with
    | [tool, pycln] =>
      match lookupStr tables tool with
      | none => true
      | some tbl => (lookupStr tbl pycln).isNone
    | _ => false
  | ".json", .flat top => (lookupStr top sec).isNone
  | ".yaml", .flat top => (lookupStr top sec).isNone
  | ".yml", .flat top => (lookupStr top sec).isNone
  | _, _ => false

/-! Concrete instances used by witnesses and counterexamples. -/

/-- A compile function for `regexu.safe_compile` that accepts every pattern
(witnesses only exercise valid patterns). -/
def scId : String → Option String := fun s => some s

/-- A `Config` holding the dataclass defaults (caller-supplied `path`
`Path("proj")`, `config=None`, the built-in include/exclude pattern
sources, every flag `False`). -/
def cDefault : Config :=
  { path := .vPath "proj", config := .vNone,
    «include» := .vStr ".*\\.py$", exclude := .vStr "(\\.eggs|\\.git)/",
    all_ := .vBool false, check := .vBool false, diff := .vBool false,
    verbose := .vBool false, quiet := .vBool false, silence := .vBool false,
    expand_stars := .vBool false, no_gitignore := .vBool false, extra := [] }

/-- `cDefault` after its validation phase under `scId`: include/exclude
compiled. -/
def cValidated : Config :=
  { cDefault with «include» := .vRegex ".*\\.py$",
                  exclude := .vRegex "(\\.eggs|\\.git)/" }

/-- A filesystem with only the scan directory `proj` and no config file. -/
def fsPlain : FS :=
  { files := [], dirs := ["proj"], doc := fun _ => .mapping (.flat []) }

/-- A filesystem whose config file `a.toml` sets the `config` key to the
decoded string `"b.toml"`, whose pycln section is empty. -/
def fsChain : FS :=
  { files := ["a.toml", "b.toml"], dirs := ["proj"],
    doc := fun p =>
      if p = "a.toml" then
        .mapping (.toml [("tool", [("pycln", [("config", .vStr "b.toml")])])])
      else .mapping (.toml [("tool", [("pycln", [])])]) }

/-- A filesystem whose only config file `b.toml` has an empty pycln
section. -/
def fsSingle : FS :=
  { files := ["b.toml"], dirs := ["proj"],
    doc := fun _ => .mapping (.toml [("tool", [("pycln", [])])]) }

/-- A filesystem whose config file `empty.yaml` is a valid but empty YAML
document: `yaml.load` returns `None`. -/
def fsEmptyYaml : FS :=
  { files := ["empty.yaml"], dirs := ["proj"], doc := fun _ => .pyNone }

/-- Whether a value is a `pathlib.Path` object. -/
def valIsPath : Val → Bool
| .vPath _ => true
| _ => false

/-- A decoded flat mapping free of `Path` values — what the four parsing
libraries can actually produce: their scalars are `str`/`bool`/`int`/`None`
(and nested containers), never `pathlib.Path` objects. -/
def mapNoPath (m : List (String × Val)) : Bool :=
  m.all (fun kv => !valIsPath kv.2)

/-- A parsed document all of whose flat mappings are `Path`-free. -/
def docNoPath : Doc → Bool
| .cfg sections => sections.all (fun s => mapNoPath s.2)
| .toml tables => tables.all (fun t => t.2.all (fun tbl => mapNoPath tbl.2))
| .flat top => top.all (fun s => mapNoPath s.2)

/-- A parse result free of `Path` values (every result a parsing library
returns is). -/
def parseNoPath : ParseResult → Bool
| .mapping d => docNoPath d
| .pyNone => true

/-! ### C10 -/

theorem setattr_keeps_path (c : Config) (k : String) (v : Val)
    (hk : k ≠ "path") : (setattrConfig c k v).path = c.path := by
  unfold setattrConfig
  split <;> simp_all

theorem applyKV_keeps_path (c : Config) (kv : String × Val) :
    (applyKV c kv).path = c.path := by
  have hk : ∀ k : String, hasattrConfig k = true → k ≠ "path" := by
    intro k h hkp
    rw [hkp] at h
    exact absurd h (by decide)
  unfold applyKV
  by_cases hh : hasattrConfig (if kv.1 = "all" then "all_" else kv.1) = true
  · simp only [hh, if_true]
    exact setattr_keeps_path c _ kv.2 (hk _ hh)
  · simp [hh]

theorem foldl_applyKV_keeps_path (m : List (String × Val)) (c : Config) :
    (m.foldl applyKV c).path = c.path := by
  induction m generalizing c with
  | nil => rfl
  | cons kv rest ih => rw [List.foldl_cons, ih, applyKV_keeps_path]

/-- Claim C10: a key named `path` never overwrites the `path` field: `path` is the
only dataclass field without a default, so it is not a class attribute and
`hasattr(Config, "path")` rejects it; consequently `_config_loader` leaves
`path` untouched for every mapping. -/
theorem path_never_overwritten (m : List (String × Val)) (c : Config) :
    (configLoader m c).path = c.path ∧ hasattrConfig "path" = false := by
  constructor
  · unfold configLoader
    split
    · rfl
    · exact foldl_applyKV_keeps_path m c
  · decide

/-! ### C5 -/

/-- Claim C5: in `_config_loader`, a key literally named `all` is renamed to
`all_` and (since `all_` is a class attribute) always assigns the `all_`
flag — never any attribute named `all` (the record update touches nothing
else, in particular not the instance dict `extra`); every key other than
`all` is looked up and applied under its own name. -/
theorem all_key_sets_allFlag (c : Config) (v : Val) (k : String) :
    applyKV c ("all", v) = { c with all_ := v } ∧
    (k ≠ "all" →
      applyKV c (k, v) =
        if hasattrConfig k then setattrConfig c k v else c) := by
  constructor
  · rfl
  · intro hk
    unfold applyKV
    simp [hk]

theorem all_key_sets_allFlag_witness :
    applyKV cDefault ("all", .vBool true) = { cDefault with all_ := .vBool true } ∧
    ("verbose" ≠ "all" →
      applyKV cDefault ("verbose", .vBool true) =
        if hasattrConfig "verbose" then setattrConfig cDefault "verbose" (.vBool true)
        else cDefault) :=
  all_key_sets_allFlag cDefault (.vBool true) "verbose"

/-! ### C2 -/

/-- Claim C2 fails as stated: `"get_relpath"` is not a schema field, yet merging
the mapping `{"get_relpath": True}` does not give the same object as the
mapping with that unknown key removed — `hasattr(Config, "get_relpath")` is
`True` (it is a method), so `setattr` creates a new instance attribute. -/
theorem unknown_key_counterexample :
    configLoader [("get_relpath", .vBool true)] cDefault ≠
      configLoader [] cDefault := by decide

theorem applyKV_skips_nonattr (c : Config) (kv : String × Val)
    (h : hasattrConfig (if kv.1 = "all" then "all_" else kv.1) = false) :
    applyKV c kv = c := by
  unfold applyKV
  simp [h]

theorem foldl_applyKV_filter (m : List (String × Val)) (c : Config) :
    m.foldl applyKV c =
      (m.filter
        (fun kv => hasattrConfig (if kv.1 = "all" then "all_" else kv.1))).foldl
        applyKV c := by
  induction m generalizing c with
  | nil => rfl
  | cons kv rest ih =>
    rw [List.foldl_cons, List.filter_cons]
    by_cases h : hasattrConfig (if kv.1 = "all" then "all_" else kv.1) = true
    · rw [if_pos h, List.foldl_cons, ih]
    · rw [if_neg h, applyKV_skips_nonattr c kv (by simpa using h), ih]

theorem configLoader_eq_foldl (m : List (String × Val)) (c : Config) :
    configLoader m c = m.foldl applyKV c := by
  unfold configLoader
  split
  · rename_i h
    rw [List.isEmpty_iff.mp h]
    rfl
  · rfl

/-- Claim C2 amended: a key whose name (after the `all` ~> `all_` substitution) is
not an attribute of the `Config` class — fields with defaults, methods, and
inherited members — is silently ignored, and the merged object is identical
to the one obtained with all such keys removed. (As stated the claim is
false: the whitelist is `hasattr(Config, k)`, which also admits non-field
class attributes such as method names, and those do introduce new instance
attributes — see `unknown_key_counterexample`.) -/
theorem merge_ignores_nonattr_keys (m : List (String × Val)) (c : Config) :
    configLoader m c =
      configLoader
        (m.filter
          (fun kv => hasattrConfig (if kv.1 = "all" then "all_" else kv.1))) c := by
  rw [configLoader_eq_foldl, configLoader_eq_foldl]
  exact foldl_applyKV_filter m c

/-! ### C4 -/

/-- Claim C4: the five decoders feed one shared merger, so whenever documents in
the different formats decode (at their resolved section keys, per
`CONFIG_SECTIONS`) to the same flat mapping, merging onto the same defaults
gives field-for-field identical settings objects. The final conjuncts pin
the section keys used here to the `CONFIG_SECTIONS` table. -/
theorem format_equivalence (dc dt dj dy dm : Doc) (m : List (String × Val))
    (c : Config)
    (h1 : decodeDoc dc "pycln" ".cfg" = m)
    (h2 : decodeDoc dt "tool.pycln" ".toml" = m)
    (h3 : decodeDoc dj "pycln" ".json" = m)
    (h4 : decodeDoc dy "pycln" ".yaml" = m)
    (h5 : decodeDoc dm "pycln" ".yml" = m) :
    configLoader (decodeDoc dc "pycln" ".cfg") c = configLoader m c ∧
    configLoader (decodeDoc dt "tool.pycln" ".toml") c = configLoader m c ∧
    configLoader (decodeDoc dj "pycln" ".json") c = configLoader m c ∧
    configLoader (decodeDoc dy "pycln" ".yaml") c = configLoader m c ∧
    configLoader (decodeDoc dm "pycln" ".yml") c = configLoader m c ∧
    lookupStr CONFIG_SECTIONS ".cfg" = some "pycln" ∧
    lookupStr CONFIG_SECTIONS ".toml" = some "tool.pycln" ∧
    lookupStr CONFIG_SECTIONS ".json" = some "pycln" ∧
    lookupStr CONFIG_SECTIONS ".yaml" = some "pycln" ∧
    lookupStr CONFIG_SECTIONS ".yml" = some "pycln" := by
  rw [h1, h2, h3, h4, h5]
  exact ⟨rfl, rfl, rfl, rfl, rfl, rfl, rfl, rfl, rfl, rfl⟩

theorem format_equivalence_witness :
    configLoader
        (decodeDoc (.cfg [("pycln", [("verbose", .vStr "true")])]) "pycln" ".cfg")
        cDefault =
      configLoader [("verbose", .vStr "true")] cDefault ∧
    configLoader
        (decodeDoc (.toml [("tool", [("pycln", [("verbose", .vStr "true")])])])
          "tool.pycln" ".toml") cDefault =
      configLoader [("verbose", .vStr "true")] cDefault ∧
    configLoader
        (decodeDoc (.flat [("pycln", [("verbose", .vStr "true")])]) "pycln" ".json")
        cDefault =
      configLoader [("verbose", .vStr "true")] cDefault ∧
    configLoader
        (decodeDoc (.flat [("pycln", [("verbose", .vStr "true")])]) "pycln" ".yaml")
        cDefault =
      configLoader [("verbose", .vStr "true")] cDefault ∧
    configLoader
        (decodeDoc (.flat [("pycln", [("verbose", .vStr "true")])]) "pycln" ".yml")
        cDefault =
      configLoader [("verbose", .vStr "true")] cDefault ∧
    lookupStr CONFIG_SECTIONS ".cfg" = some "pycln" ∧
    lookupStr CONFIG_SECTIONS ".toml" = some "tool.pycln" ∧
    lookupStr CONFIG_SECTIONS ".json" = some "pycln" ∧
    lookupStr CONFIG_SECTIONS ".yaml" = some "pycln" ∧
    lookupStr CONFIG_SECTIONS ".yml" = some "pycln" :=
  format_equivalence (.cfg [("pycln", [("verbose", .vStr "true")])])
    (.toml [("tool", [("pycln", [("verbose", .vStr "true")])])])
    (.flat [("pycln", [("verbose", .vStr "true")])])
    (.flat [("pycln", [("verbose", .vStr "true")])])
    (.flat [("pycln", [("verbose", .vStr "true")])])
    [("verbose", .vStr "true")] cDefault rfl rfl rfl rfl rfl

/-! ### C6 -/

/-- Claim C6 fails as stated: an empty `.yaml` file is an otherwise valid
config file (valid YAML) whose resolved section key is absent, but
`yaml.load` returns `None` and `parsed_yaml.get` at config.py:151 raises
`AttributeError` — decoding is an error, and the construction errors out
instead of yielding the pure defaults. -/
theorem empty_yaml_counterexample :
    decodeFile ParseResult.pyNone "pycln" ".yaml" = .error Err.typeCrash ∧
    postInit scId 2 fsEmptyYaml { cDefault with config := .vPath "empty.yaml" } =
      .error Err.typeCrash :=
  ⟨rfl, rfl⟩

/-- Claim C6 amended: for a config file whose parsed document is a mapping —
which `configparser` and `toml.load` always produce, and `json.load` /
`yaml.load` produce for mapping-shaped documents — an absent resolved
section key, including absence of either level of the TOML dotted path,
decodes to the empty mapping rather than an error, and merging it leaves
the settings object exactly at the pure defaults. (An otherwise valid file
parsing to a non-mapping document, such as an empty YAML file parsing to
`None`, instead raises `AttributeError`: see
the empty-yaml counterexample.) -/
theorem absent_section_mapping_defaults (d : Doc) (sec suffix : String)
    (c : Config) (h : sectionAbsent d sec suffix = true) :
    decodeFile (ParseResult.mapping d) sec suffix =
      .ok (decodeDoc d sec suffix) ∧
    decodeDoc d sec suffix = [] ∧
    configLoader (decodeDoc d sec suffix) c = c := by
  refine ⟨rfl, ?_⟩
  have hd : decodeDoc d sec suffix = [] := by
    unfold sectionAbsent at h
    unfold decodeDoc
    split at h
    · simp_all [Option.isNone_iff_eq_none]
    · split at h
      · split at h
        · simp_all [lookupStr]
        · simp_all [Option.isNone_iff_eq_none]
      · exact absurd h (by simp)
    · simp_all [Option.isNone_iff_eq_none]
    · simp_all [Option.isNone_iff_eq_none]
    · simp_all [Option.isNone_iff_eq_none]
    · exact absurd h (by simp)
  refine ⟨hd, ?_⟩
  rw [hd]
  rfl

theorem absent_section_mapping_defaults_witness :
    decodeFile
        (ParseResult.mapping (.toml [("tool", [("other", [("x", .vBool true)])])]))
        "tool.pycln" ".toml" =
      .ok (decodeDoc (.toml [("tool", [("other", [("x", .vBool true)])])])
        "tool.pycln" ".toml") ∧
    decodeDoc (.toml [("tool", [("other", [("x", .vBool true)])])])
        "tool.pycln" ".toml" = [] ∧
    configLoader
        (decodeDoc (.toml [("tool", [("other", [("x", .vBool true)])])])
          "tool.pycln" ".toml") cDefault = cDefault :=
  absent_section_mapping_defaults
    (.toml [("tool", [("other", [("x", .vBool true)])])])
    "tool.pycln" ".toml" cDefault (by decide)

/-! ### C7 -/

/-- Claim C7: when `config` points at a path that is not an existing file, the
loader fails with the missing-file outcome before format resolution — the
same error results regardless of the extension, so no decoder runs and no
unsupported-format diagnostic appears — its message mentions the path, and
the process exits with status 1. -/
theorem missing_file_error (fuel : Nat) (fs : FS)
    (sc : String → Option String) (c : Config) (p : String)
    (hc : c.config = .vPath p) (hf : fs.files.contains p = false) :
    postInit sc (fuel + 1) fs c = .error (.missingFileError p) ∧
    exitStatus (.missingFileError p) = some 1 ∧
    errMessage (.missingFileError p) =
      "Config file " ++ "'" ++ p ++ "'" ++ " does not exist 😅" := by
  refine ⟨?_, rfl, rfl⟩
  have hmem : p ∉ fs.files := by simpa using hf
  rw [postInit]
  unfold postInitStep
  rw [hc]
  simp [asPathVal, hmem]

theorem missing_file_error_witness :
    postInit scId 1 fsPlain { cDefault with config := .vPath "gone.ini" } =
      .error (.missingFileError "gone.ini") ∧
    exitStatus (.missingFileError "gone.ini") = some 1 ∧
    errMessage (.missingFileError "gone.ini") =
      "Config file " ++ "'" ++ "gone.ini" ++ "'" ++ " does not exist 😅" :=
  missing_file_error 0 fsPlain scId
    { cDefault with config := .vPath "gone.ini" } "gone.ini" rfl (by decide)

/-! ### C8 -/

/-- Claim C8: an existing config file whose extension is outside
`CONFIG_SECTIONS` makes the loader fail with the unsupported-format outcome
carrying exactly the supported extension list, exiting with status 1; the
construction returns no settings object (the merge is never reached) and no
decoder runs. -/
theorem unsupported_format_error (fuel : Nat) (fs : FS)
    (sc : String → Option String) (c : Config) (p : String)
    (hc : c.config = .vPath p) (hf : fs.files.contains p = true)
    (hs : lookupStr CONFIG_SECTIONS (suffixOf p) = none) :
    postInit sc (fuel + 1) fs c =
      .error (.unsupportedFormatError p
        [".cfg", ".toml", ".json", ".yaml", ".yml"]) ∧
    exitStatus (.unsupportedFormatError p
      [".cfg", ".toml", ".json", ".yaml", ".yml"]) = some 1 ∧
    CONFIG_SECTIONS.map Prod.fst =
      [".cfg", ".toml", ".json", ".yaml", ".yml"] := by
  refine ⟨?_, rfl, rfl⟩
  have hmem : p ∈ fs.files := by simpa using hf
  rw [postInit]
  unfold postInitStep
  rw [hc]
  simp [asPathVal, hmem, hs]
  rfl

theorem unsupported_format_error_witness :
    postInit scId 1
        { files := ["x.ini"], dirs := ["proj"], doc := fun _ => .mapping (.flat []) }
        { cDefault with config := .vPath "x.ini" } =
      .error (.unsupportedFormatError "x.ini"
        [".cfg", ".toml", ".json", ".yaml", ".yml"]) ∧
    exitStatus (.unsupportedFormatError "x.ini"
      [".cfg", ".toml", ".json", ".yaml", ".yml"]) = some 1 ∧
    CONFIG_SECTIONS.map Prod.fst =
      [".cfg", ".toml", ".json", ".yaml", ".yml"] :=
  unsupported_format_error 0
    { files := ["x.ini"], dirs := ["proj"], doc := fun _ => .mapping (.flat []) }
    scId { cDefault with config := .vPath "x.ini" } "x.ini" rfl (by decide)
    (by decide)

/-! ### C9 -/

theorem commonPrefix_take (x : List String) :
    ∀ p : List String,
      x.take (commonPrefixLen x p) = p.take (commonPrefixLen x p) := by
  induction x with
  | nil => intro p; cases p <;> rfl
  | cons a as ih =>
    intro p
    cases p with
    | nil => rfl
    | cons b bs =>
      by_cases hab : a = b
      · simp [commonPrefixLen, hab, ih bs]
      · simp [commonPrefixLen, hab]

theorem commonPrefix_le (x : List String) :
    ∀ p : List String, commonPrefixLen x p ≤ p.length := by
  induction x with
  | nil => intro p; cases p <;> simp [commonPrefixLen]
  | cons a as ih =>
    intro p
    cases p with
    | nil => simp [commonPrefixLen]
    | cons b bs =>
      by_cases hab : a = b
      · simpa [commonPrefixLen, hab] using ih bs
      · simp [commonPrefixLen, hab]

theorem foldl_replicate_dotdot (k : Nat) :
    ∀ p : List String,
      List.foldl
        (fun acc comp =>
          if comp = ".." then acc.dropLast
          else if comp = "." then acc else acc ++ [comp])
        p (List.replicate k "..") = p.take (p.length - k) := by
  induction k with
  | zero => intro p; simp
  | succ k ih =>
    intro p
    rw [List.replicate_succ, List.foldl_cons]
    have hstep :
        (if ".." = ".." then p.dropLast
         else if ".." = "." then p else p ++ [".."]) = p.dropLast := by simp
    rw [hstep, ih p.dropLast, List.length_dropLast, List.dropLast_eq_take,
      List.take_take]
    have harith : (p.length - 1 - k) ⊓ (p.length - 1) = p.length - (k + 1) := by
      omega
    rw [harith]

theorem foldl_clean (r : List String) :
    ∀ p : List String, (∀ comp ∈ r, comp ≠ ".." ∧ comp ≠ ".") →
      List.foldl
        (fun acc comp =>
          if comp = ".." then acc.dropLast
          else if comp = "." then acc else acc ++ [comp])
        p r = p ++ r := by
  induction r with
  | nil => intro p _; simp
  | cons comp rest ih =>
    intro p hr
    obtain ⟨h1, h2⟩ := hr comp (by simp)
    rw [List.foldl_cons]
    have hstep :
        (if comp = ".." then p.dropLast
         else if comp = "." then p else p ++ [comp]) = p ++ [comp] := by
      simp [h1, h2]
    rw [hstep, ih (p ++ [comp]) (fun x hx => hr x (by simp [hx]))]
    simp

/-- Re-anchoring a normalized absolute candidate under `path` via
`join(path, relpath(candidate, path))` reproduces the effective
value of the candidate. -/
theorem join_relpath_identity (x p : List String)
    (hx : normalizedPath x = true) :
    joinNorm p (relpathComponents x p) = x := by
  unfold joinNorm relpathComponents
  rw [List.foldl_append, foldl_replicate_dotdot,
    Nat.sub_sub_self (commonPrefix_le x p), ← commonPrefix_take x p]
  rw [foldl_clean]
  · exact List.take_append_drop _ x
  · intro comp hc
    have hmem : comp ∈ x := List.mem_of_mem_drop hc
    have := (List.all_eq_true.mp hx) comp hmem
    constructor
    · intro hdd
      rw [hdd] at this
      exact absurd this (by decide)
    · intro hd
      rw [hd] at this
      exact absurd this (by decide)

/-- Claim C9: `get_relpath` is a pure function of the candidate, the base `path`,
and the set of existing files (it mutates nothing — the model is a plain
function). An existing-file candidate is returned unchanged; a
non-existing-file candidate is returned as
`join(path, relpath(candidate, path))`, which at effective (normalized)
value is the candidate unchanged; hence applying it twice equals applying
it once. -/
theorem get_relpath_idempotent (files : List (List String))
    (path src : List String) (hs : normalizedPath src = true) :
    get_relpath files path src = src ∧
    get_relpath files path (get_relpath files path src) =
      get_relpath files path src ∧
    (files.contains src = true → get_relpath files path src = src) ∧
    (files.contains src = false →
      get_relpath files path src = joinNorm path (relpathComponents src path)) := by
  have h1 : get_relpath files path src = src := by
    unfold get_relpath
    split
    · rfl
    · exact join_relpath_identity src path hs
  refine ⟨h1, by rw [h1]; exact h1, fun _ => h1, fun hnc => ?_⟩
  have hmem : src ∉ files := by simpa using hnc
  simp [get_relpath, hmem]

theorem get_relpath_idempotent_witness :
    get_relpath [] ["repo"] ["repo", "sub", "file.py"] =
      ["repo", "sub", "file.py"] ∧
    get_relpath [] ["repo"] (get_relpath [] ["repo"] ["repo", "sub", "file.py"]) =
      get_relpath [] ["repo"] ["repo", "sub", "file.py"] ∧
    (List.contains [] ["repo", "sub", "file.py"] = true →
      get_relpath [] ["repo"] ["repo", "sub", "file.py"] =
        ["repo", "sub", "file.py"]) ∧
    (List.contains [] ["repo", "sub", "file.py"] = false →
      get_relpath [] ["repo"] ["repo", "sub", "file.py"] =
        joinNorm ["repo"]
          (relpathComponents ["repo", "sub", "file.py"] ["repo"])) :=
  get_relpath_idempotent [] ["repo"] ["repo", "sub", "file.py"] (by decide)

/-! ### C3 -/

theorem validate_ok (fs : FS) (sc : String → Option String) (c c' : Config)
    (h : validate fs sc c = .ok c') :
    (isDirV fs c'.path || isFileV fs c'.path) = true ∧
    (∃ r, c'.«include» = Val.vRegex r) ∧ (∃ r, c'.exclude = Val.vRegex r) := by
  unfold validate at h
  split at h
  · exact absurd h (by simp)
  · rename_i hcp
    unfold checkRegex at h
    split at h
    · exact absurd h (by simp)
    · rename_i r1 hr1
      split at h
      · exact absurd h (by simp)
      · rename_i r2 hr2
        simp only [Except.ok.injEq] at h
        subst h
        refine ⟨?_, ⟨r1, rfl⟩, ⟨r2, rfl⟩⟩
        unfold checkPath at hcp
        split at hcp
        · exact absurd hcp (by simp)
        · split at hcp
          · rename_i hdir
            exact hdir
          · exact absurd hcp (by simp)

/-- Claim C3: whenever a construction finishes on the success path — with or
without config files loaded along the way — the resulting settings object
has a `path` that is an existing directory or an existing file, and
`include`/`exclude` hold compiled patterns (`vRegex`), never raw strings:
the final act of every successful `__post_init__` chain is
`_check_path` + `_check_regex`. -/
theorem construction_validates (fuel : Nat) (fs : FS)
    (sc : String → Option String) (c c' : Config) (n : Nat)
    (h : postInit sc fuel fs c = .ok (c', n)) :
    (isDirV fs c'.path || isFileV fs c'.path) = true ∧
    (∃ r, c'.«include» = Val.vRegex r) ∧ (∃ r, c'.exclude = Val.vRegex r) := by
  induction fuel generalizing c n with
  | zero => simp [postInit] at h
  | succ fuel ih =>
    simp only [postInit] at h
    unfold postInitStep at h
    split at h
    · -- config is None: validation runs directly
      split at h
      · exact Except.noConfusion h
      · rename_i cV hv
        simp only [Except.ok.injEq, Prod.mk.injEq] at h
        obtain ⟨rfl, rfl⟩ := h
        exact validate_ok fs sc c cV hv
    · -- config set: loader runs, then __post_init__ re-enters
      split at h
      · exact Except.noConfusion h
      · split at h
        · split at h
          · exact Except.noConfusion h
          · split at h
            · exact Except.noConfusion h
            · split at h
              · exact Except.noConfusion h
              · rename_i c'' n' hrec
                simp only [Except.ok.injEq, Prod.mk.injEq] at h
                obtain ⟨rfl, rfl⟩ := h
                exact ih _ _ hrec
        · exact Except.noConfusion h

theorem construction_validates_witness :
    postInit scId 1 fsPlain cDefault = .ok (cValidated, 0) ∧
    ((isDirV fsPlain cValidated.path || isFileV fsPlain cValidated.path) = true ∧
      (∃ r, cValidated.«include» = Val.vRegex r) ∧
      (∃ r, cValidated.exclude = Val.vRegex r)) :=
  ⟨rfl, construction_validates 1 fsPlain scId cDefault cValidated 0 rfl⟩

/-! ### C1 -/

theorem lookupStr_mem {α : Type} (l : List (String × α)) (k : String) (v : α)
    (h : lookupStr l k = some v) : v ∈ l.map Prod.snd := by
  induction l with
  | nil => simp [lookupStr] at h
  | cons e rest ih =>
    obtain ⟨k1, v1⟩ := e
    unfold lookupStr at h
    split at h
    · simp only [Option.some.injEq] at h
      subst h
      simp
    · simp only [List.map_cons, List.mem_cons]
      exact Or.inr (ih h)

theorem flat_lookup_noPath (ss : List (String × List (String × Val)))
    (sec : String) (h : ss.all (fun s => mapNoPath s.2) = true) :
    mapNoPath ((lookupStr ss sec).getD []) = true := by
  cases hl : lookupStr ss sec with
  | none => rfl
  | some fm =>
    have hmem := lookupStr_mem ss sec fm hl
    obtain ⟨e, he, hfm⟩ := List.mem_map.mp hmem
    have h2 : mapNoPath e.2 = true := (List.all_eq_true.mp h) e he
    rw [hfm] at h2
    exact h2

theorem toml_lookup_noPath
    (tables : List (String × List (String × List (String × Val))))
    (tool pycln : String)
    (h : tables.all (fun t => t.2.all (fun tbl => mapNoPath tbl.2)) = true) :
    mapNoPath ((lookupStr ((lookupStr tables tool).getD []) pycln).getD []) =
      true := by
  cases hl : lookupStr tables tool with
  | none => rfl
  | some tbls =>
    have hmem := lookupStr_mem tables tool tbls hl
    obtain ⟨e, he, hfm⟩ := List.mem_map.mp hmem
    have h2 : e.2.all (fun tbl => mapNoPath tbl.2) = true :=
      (List.all_eq_true.mp h) e he
    rw [hfm] at h2
    exact flat_lookup_noPath tbls pycln h2

theorem decode_noPath (d : Doc) (sec suffix : String)
    (hd : docNoPath d = true) :
    mapNoPath (decodeDoc d sec suffix) = true := by
  unfold decodeDoc
  split
  · -- .cfg
    simp only [docNoPath] at hd
    exact flat_lookup_noPath _ sec hd
  · -- .toml
    simp only [docNoPath] at hd
    split
    · exact toml_lookup_noPath _ _ _ hd
    · rfl
  · -- .json
    simp only [docNoPath] at hd
    exact flat_lookup_noPath _ sec hd
  · -- .yaml
    simp only [docNoPath] at hd
    exact flat_lookup_noPath _ sec hd
  · -- .yml
    simp only [docNoPath] at hd
    exact flat_lookup_noPath _ sec hd
  · rfl

theorem decodeFile_noPath (r : ParseResult) (sec suffix : String)
    (m : List (String × Val)) (hr : parseNoPath r = true)
    (h : decodeFile r sec suffix = .ok m) : mapNoPath m = true := by
  cases r with
  | mapping d =>
    simp only [decodeFile, Except.ok.injEq] at h
    subst h
    exact decode_noPath d sec suffix hr
  | pyNone => simp [decodeFile] at h

theorem setattr_config_or (c : Config) (k : String) (v : Val) :
    (setattrConfig c k v).config = c.config ∨
    (setattrConfig c k v).config = v := by
  unfold setattrConfig
  split <;> first | exact Or.inl rfl | exact Or.inr rfl

theorem applyKV_config_or (c : Config) (kv : String × Val) :
    (applyKV c kv).config = c.config ∨ (applyKV c kv).config = kv.2 := by
  unfold applyKV
  by_cases hh : hasattrConfig (if kv.1 = "all" then "all_" else kv.1) = true
  · simp only [hh, if_true]
    exact setattr_config_or c _ kv.2
  · simp [hh]

theorem foldl_noPath_config (m : List (String × Val)) :
    ∀ c : Config, mapNoPath m = true → valIsPath c.config = false →
      valIsPath (m.foldl applyKV c).config = false := by
  induction m with
  | nil => intro c _ hc; exact hc
  | cons kv rest ih =>
    intro c hm hc
    simp only [mapNoPath, List.all_cons, Bool.and_eq_true] at hm
    rw [List.foldl_cons]
    apply ih _ (by simpa [mapNoPath] using hm.2)
    rcases applyKV_config_or c kv with hor | hor
    · rw [hor]; exact hc
    · rw [hor]; simpa using hm.1

theorem configLoader_noPath (m : List (String × Val)) (c : Config)
    (hm : mapNoPath m = true) (hc : valIsPath c.config = false) :
    valIsPath (configLoader m c).config = false := by
  rw [configLoader_eq_foldl]
  exact foldl_noPath_config m c hm hc

theorem asPathVal_some (v : Val) (p : String) (h : asPathVal v = some p) :
    v = .vPath p := by
  cases v <;> simp [asPathVal] at h
  rw [h]

theorem postInit_nonpath_loads (fuel : Nat) (fs : FS)
    (sc : String → Option String) (c c' : Config) (n : Nat)
    (hcp : valIsPath c.config = false)
    (h : postInit sc (fuel + 1) fs c = .ok (c', n)) : n = 0 := by
  simp only [postInit] at h
  unfold postInitStep at h
  split at h
  · split at h
    · exact Except.noConfusion h
    · simp only [Except.ok.injEq, Prod.mk.injEq] at h
      exact h.2.symm
  · split at h
    · exact Except.noConfusion h
    · rename_i p hap
      rw [asPathVal_some c.config p hap] at hcp
      simp [valIsPath] at hcp

/-- Claim C1: the external config file is loaded at most once per
construction, regardless of the contents of the loaded file. `config` is
cleared before `ParseConfigFile` runs, and the merge can only re-populate
it with a decoded value — always a plain `str`/`bool`/`int`/`None`, never a
`pathlib.Path` (hypothesis `hfs`) — on which the re-invoked `__post_init__`
either finds `None` (no further load) or dies with `AttributeError` at
`self._path.suffix` before `parse()` runs (see `config_chain_crashes`), so
a second file is never loaded: every construction that completes has loaded
at most one file. -/
theorem config_loaded_at_most_once (fuel : Nat) (fs : FS)
    (sc : String → Option String) (c c' : Config) (n : Nat)
    (hfs : ∀ q : String, parseNoPath (fs.doc q) = true)
    (h : postInit sc fuel fs c = .ok (c', n)) : n ≤ 1 := by
  cases fuel with
  | zero => simp [postInit] at h
  | succ fuel =>
    simp only [postInit] at h
    unfold postInitStep at h
    split at h
    · split at h
      · exact Except.noConfusion h
      · simp only [Except.ok.injEq, Prod.mk.injEq] at h
        omega
    · split at h
      · exact Except.noConfusion h
      · rename_i p hap
        split at h
        · split at h
          · exact Except.noConfusion h
          · rename_i sec hsec
            split at h
            · exact Except.noConfusion h
            · rename_i m hdec
              split at h
              · exact Except.noConfusion h
              · rename_i c2 n2 hrec
                simp only [Except.ok.injEq, Prod.mk.injEq] at h
                obtain ⟨_, hn⟩ := h
                have hm : mapNoPath m = true :=
                  decodeFile_noPath (fs.doc p) sec (suffixOf p) m (hfs p) hdec
                have hc2 : valIsPath
                    (configLoader m { c with config := Val.vNone }).config =
                      false :=
                  configLoader_noPath m _ hm rfl
                cases fuel with
                | zero => simp [postInit] at hrec
                | succ f =>
                  have hz := postInit_nonpath_loads f fs sc _ c2 n2 hc2 hrec
                  omega
        · exact Except.noConfusion h

/-- On `fsChain` the loaded `a.toml` stores the decoded string `"b.toml"`
in `config`; the re-invoked `__post_init__` hands that `str` to
`ParseConfigFile`, whose `__init__` reads `self._path.suffix` at once
(config.py:105) — `str` has no `.suffix`, so the construction dies with
`AttributeError` after exactly one file load; the second file is never
opened. -/
theorem config_chain_crashes :
    postInit scId 3 fsChain { cDefault with config := .vPath "a.toml" } =
      .error Err.typeCrash := rfl

theorem config_loaded_at_most_once_witness :
    (∀ q : String, parseNoPath (fsSingle.doc q) = true) ∧
    postInit scId 2 fsSingle { cDefault with config := .vPath "b.toml" } =
      .ok (cValidated, 1) ∧
    (1 : Nat) ≤ 1 :=
  ⟨fun _ => rfl, rfl,
    config_loaded_at_most_once 2 fsSingle scId
      { cDefault with config := .vPath "b.toml" } cValidated 1
      (fun _ => rfl) rfl⟩

end PyclnConfig
